import Mathlib

/-!
Verification development for the PDF splitting pipeline (src/split.py).

The Python source is shallowly embedded over `List Char`:
pure helper functions become Lean functions, the regex searches of the
source are implemented with the exact leftmost-match / greedy semantics
of Python `re.search` for the concrete patterns that appear in the code,
Python values flowing out of `json.loads` are modelled by the inductive
type `PyVal`, and the page-processing loop of `process_pdf` becomes a
fold over per-page environment inputs, with the external effects
(document handles, temp file, `st.error` / `st.warning` calls) recorded
as an explicit event list.
-/

/- ===== Python string primitives ===== -/

/-- The ASCII whitespace characters recognised by Python `str.strip` and
by the regex class `\s` (unicode exotica are not modelled). -/
def pyIsSpace (c : Char) : Bool :=
  c = ' ' || c = '\t' || c = '\n' || c = '\r' || c = '\x0b' || c = '\x0c'

/-- Python `str.strip()`: remove leading and trailing whitespace. -/
def pyStrip (s : List Char) : List Char :=
  ((s.dropWhile pyIsSpace).reverse.dropWhile pyIsSpace).reverse

/-- Python substring test `pat in s`. -/
def containsSub (pat : List Char) : List Char → Bool
  | [] => pat.isEmpty
  | c :: t => pat.isPrefixOf (c :: t) || containsSub pat t

/-- Python `s.split(pat, 1)[1]`: the suffix after the first occurrence of
`pat` (empty when `pat` does not occur; callers guard on occurrence). -/
def afterFirst (pat : List Char) : List Char → List Char
  | [] => []
  | c :: t => if pat.isPrefixOf (c :: t) then (c :: t).drop pat.length else afterFirst pat t

/-- Python `s.split(pat, 1)[0]`: the prefix before the first occurrence of
`pat` (the whole string when `pat` does not occur). -/
def beforeFirst (pat : List Char) : List Char → List Char
  | [] => []
  | c :: t => if pat.isPrefixOf (c :: t) then [] else c :: beforeFirst pat t

theorem length_dropWhile_le (p : Char → Bool) (s : List Char) :
    (s.dropWhile p).length ≤ s.length := by
  induction s with
  | nil => simp [List.dropWhile]
  | cons c t ih =>
    simp only [List.dropWhile]
    cases p c <;> simp <;> omega

theorem pyStrip_length_le (s : List Char) : (pyStrip s).length ≤ s.length := by
  unfold pyStrip
  calc ((s.dropWhile pyIsSpace).reverse.dropWhile pyIsSpace).reverse.length
      = ((s.dropWhile pyIsSpace).reverse.dropWhile pyIsSpace).length := by
        simp
    _ ≤ (s.dropWhile pyIsSpace).reverse.length := length_dropWhile_le _ _
    _ = (s.dropWhile pyIsSpace).length := by simp
    _ ≤ s.length := length_dropWhile_le _ _

theorem afterFirst_length_le (pat s : List Char) :
    (afterFirst pat s).length ≤ s.length := by
  induction s with
  | nil => simp [afterFirst]
  | cons c t ih =>
    simp only [afterFirst]
    split
    · simpa using List.length_drop_le _ _
    · simp only [List.length_cons]; omega

theorem beforeFirst_length_le (pat s : List Char) :
    (beforeFirst pat s).length ≤ s.length := by
  induction s with
  | nil => simp [beforeFirst]
  | cons c t ih =>
    simp only [beforeFirst]
    split
    · simp
    · simp only [List.length_cons]; omega

/- ===== Name Normalizer (split.py lines 55-80) ===== -/

/-- The ordered override table `SPECIAL_MAP` of split.py, in source order. -/
def SPECIAL_MAP : List (List Char × List Char) :=
  [(("FH-CAPDYN:MF/BOC").data, ("CAPDYN").data),
   (("FH-Mirae").data, ("Mirae").data),
   (("FH-iFund").data, ("iFund").data),
   (("FH-GaoTeng").data, ("GaoTeng").data),
   (("FH-GF-MMF").data, ("GF").data),
   (("FH-TaiKang").data, ("TaiKang").data),
   (("CMB Wing Lung").data, ("GF MMF").data),
   (("ICBC(Asia) Trustee - GaoTeng").data, ("GaoTeng").data),
   (("BOCI-Prudential Trustee - Taikang Kaitai").data, ("Taikang").data),
   (("Webull Securities").data, ("Webull").data),
   (("JPMorgan Bank Luxembourg SA - Momentum").data, ("Momentum").data),
   (("BOCI Prudential Asset Management Limited").data, ("BOCIP").data),
   (("FH-Peak/Belgrave").data, ("Belgrave").data),
   (("FH-Everbright/Broker").data, ("Everbright").data),
   (("FH-NJ/").data, ("Nanjia").data)]

/-- `simplify_from_full` of split.py: empty input yields empty output; the
first override whose key occurs in the input wins; otherwise the trimmed
text before the first dash (`full_name.split('-', 1)[0].strip()`). -/
def simplify_from_full (full_name : List Char) : List Char :=
  if full_name = [] then []
  else
    match SPECIAL_MAP.find? (fun kv => containsSub kv.1 full_name) with
    | some kv => kv.2
    | none => pyStrip (beforeFirst [Char.ofNat 45] full_name)

/- ===== sanitize_filename and the filename f-string (lines 50-52, 304-307) ===== -/

/-- The characters of the regex class in `sanitize_filename`. -/
def invalidFilenameChars : List Char := ['<', '>', ':', '"', '/', '\\', '|', '?', '*']

/-- `sanitize_filename` of split.py: replace each invalid character by an
underscore, strip surrounding whitespace, and fall back to "untitled"
when the result is empty (`re.sub(...).strip() or "untitled"`). -/
def sanitize_filename (s : List Char) : List Char :=
  let replaced := s.map (fun c => if invalidFilenameChars.contains c then '_' else c)
  let stripped := pyStrip replaced
  if stripped = [] then ("untitled").data else stripped

/-- Python `str.zfill(2)` on a digit string. -/
def zfill2 (s : List Char) : List Char :=
  if s.length < 2 then List.replicate (2 - s.length) '0' ++ s else s

/-- The filename f-string of split.py line 306:
`S{date_str}-{seq:zfill2}_{sanitized_name}_{currency}-order details.pdf`. -/
def emit_filename (date_str : List Char) (seq : Nat) (chosen ccy : List Char) : List Char :=
  ("S").data ++ date_str ++ [Char.ofNat 45] ++ zfill2 (Nat.repr seq).data ++ ('_' :: sanitize_filename chosen) ++ ('_' :: ccy) ++ ("-order details.pdf").data

/- ===== Python re.search engines for the concrete patterns of split.py ===== -/

/-- Match a literal at the head of the input, returning the rest. -/
def dropLit (lit s : List Char) : Option (List Char) :=
  if lit.isPrefixOf s then some (s.drop lit.length) else none

/-- Leftmost-match search: try the pattern at every start position. -/
def searchWith {α : Type} (tryAt : List Char → Option α) : List Char → Option α
  | [] => tryAt []
  | c :: t =>
    match tryAt (c :: t) with
    | some v => some v
    | none => searchWith tryAt t

/-- Currency alternation of the fallback regex, in source order. -/
def CURRENCIES_FB : List (List Char) :=
  [("USD").data, ("HKD").data, ("JPY").data, ("AUD").data, ("EUR").data, ("GBP").data, ("CNY").data]

/-- Currency list of `is_summary_page`, in source order. -/
def CURRENCIES_SUM : List (List Char) :=
  [("JPY").data, ("USD").data, ("HKD").data, ("AUD").data, ("EUR").data, ("GBP").data, ("CNY").data]

/-- One position of `Currency\s*:\s*(USD|HKD|JPY|AUD|EUR|GBP|CNY)`.
The greedy `\s*` cannot backtrack usefully because `:` and the currency
codes start with non-whitespace characters. -/
def tryCurrencyAt (s : List Char) : Option (List Char) :=
  match dropLit ("Currency").data s with
  | none => none
  | some r1 =>
    match r1.dropWhile pyIsSpace with
    | ':' :: r3 =>
      CURRENCIES_FB.find? (fun code => code.isPrefixOf (r3.dropWhile pyIsSpace))
    | _ => none

/-- `re.search(r'Currency\s*:\s*(USD|HKD|JPY|AUD|EUR|GBP|CNY)', s)`, group 1. -/
def searchCurrency (s : List Char) : Option (List Char) := searchWith tryCurrencyAt s

/-- Greedy `\s*(.+)` with Python backtracking: after consuming the maximal
whitespace run, `.+` matches the rest of the line if non-empty; otherwise
the engine backtracks into the whitespace run, so the group becomes the
last non-newline whitespace character if one exists, else the match fails. -/
def dotPlusGroup (s : List Char) : Option (List Char) :=
  match s.dropWhile pyIsSpace with
  | c :: rest => some ((c :: rest).takeWhile (fun ch => ch ≠ '\n'))
  | [] =>
    match (s.takeWhile pyIsSpace).reverse.find? (fun ch => ch ≠ '\n') with
    | some c => some [c]
    | none => none

/-- One position of `Fund Hse Settlement Inst\s*:\s*(.+)`. -/
def tryFundAt (s : List Char) : Option (List Char) :=
  match dropLit ("Fund Hse Settlement Inst").data s with
  | none => none
  | some r1 =>
    match r1.dropWhile pyIsSpace with
    | ':' :: r3 => dotPlusGroup r3
    | _ => none

/-- `re.search(r'Fund Hse Settlement Inst\s*:\s*(.+)', s)`, group 1 (pre-strip). -/
def searchFund (s : List Char) : Option (List Char) := searchWith tryFundAt s

def isDigitOrComma (c : Char) : Bool := c.isDigit || c = ','

/-- `[\d,]+\.\d{2}` anchored at this position: the maximal digit-or-comma
run (backtracking cannot help since `.` is not in the class), a dot, and
two digits; the group is the matched text. -/
def tryAmountAt (s : List Char) : Option (List Char) :=
  let run := s.takeWhile isDigitOrComma
  if run = [] then none
  else
    match s.dropWhile isDigitOrComma with
    | '.' :: d1 :: d2 :: _ =>
      if d1.isDigit && d2.isDigit then some (run ++ '.' :: [d1, d2]) else none
    | _ => none

/-- `\s+` at the head: at least one whitespace character, consumed greedily. -/
def dropSpaces1 (s : List Char) : Option (List Char) :=
  match s with
  | c :: t => if pyIsSpace c then some ((c :: t).dropWhile pyIsSpace) else none
  | [] => none

/-- `\S+` at the head: at least one non-whitespace character, consumed
greedily (backtracking cannot help: the following `\s+` needs whitespace). -/
def dropNonSpaces1 (s : List Char) : Option (List Char) :=
  match s with
  | c :: t => if pyIsSpace c then none else some ((c :: t).dropWhile (fun ch => !pyIsSpace ch))
  | [] => none

/-- One position of `Payment Group\s+\S+\s+Total\s+([\d,]+\.\d{2})`. -/
def tryPaymentAt (s : List Char) : Option (List Char) :=
  match dropLit ("Payment Group").data s with
  | none => none
  | some r1 =>
    match dropSpaces1 r1 with
    | none => none
    | some r2 =>
      match dropNonSpaces1 r2 with
      | none => none
      | some r3 =>
        match dropSpaces1 r3 with
        | none => none
        | some r4 =>
          match dropLit ("Total").data r4 with
          | none => none
          | some r5 =>
            match dropSpaces1 r5 with
            | none => none
            | some r6 => tryAmountAt r6

/-- `re.search(r'Payment Group\s+\S+\s+Total\s+([\d,]+\.\d{2})', s)`, group 1. -/
def searchPayment (s : List Char) : Option (List Char) := searchWith tryPaymentAt s

/- ===== Page Classifier (split.py lines 127-148) ===== -/

/-- The fixed `summary_indicators` list of `is_summary_page`. -/
def summary_indicators : List (List Char) :=
  [("Summary").data, ("Grand Total").data, ("Currency\nFDS_190.rpt\n").data, ("Total\n").data]

/-- One position of `Total\s*(JPY|USD|HKD|AUD|EUR|GBP|CNY)\s*[\d,]+\.\d{2}`. -/
def tryTotalCcyAt (s : List Char) : Option Unit :=
  match dropLit ("Total").data s with
  | none => none
  | some r1 =>
    let r2 := r1.dropWhile pyIsSpace
    match CURRENCIES_SUM.find? (fun code => code.isPrefixOf r2) with
    | none => none
    | some code =>
      (tryAmountAt ((r2.drop code.length).dropWhile pyIsSpace)).map (fun _ => ())

/-- Python `text.split('\n')`. -/
def splitOnNl : List Char → List (List Char)
  | [] => [[]]
  | c :: t =>
    if c = '\n' then [] :: splitOnNl t
    else
      match splitOnNl t with
      | l :: ls => (c :: l) :: ls
      | [] => [[c]]

/-- The `currency_total_count` loop of `is_summary_page`. -/
def countTotalCcyLines (t : List Char) : Nat :=
  ((splitOnNl t).filter (fun line => (searchWith tryTotalCcyAt line).isSome)).length

/-- `is_summary_page` of split.py: the nested indicator test (returning
true only when "Payment Group" is absent), then the two-currency-total
heuristic, else false. -/
def is_summary_page (t : List Char) : Bool :=
  if (summary_indicators.any (fun ind => containsSub ind t))
      && !containsSub ("Payment Group").data t then true
  else if containsSub ("Summary").data t
      && CURRENCIES_SUM.any (fun c => containsSub c t) then
    decide (countTotalCcyLines t ≥ 2)
  else false

/-- Rule A as the spec states it: some fixed marker occurs and the token
"Payment Group" does not. -/
def ruleA (t : List Char) : Bool :=
  (summary_indicators.any (fun ind => containsSub ind t))
    && !containsSub ("Payment Group").data t

/-- Rule B as the spec states it: "Summary" occurs, some currency code
occurs, and at least two lines match the currency-total pattern. -/
def ruleB (t : List Char) : Bool :=
  containsSub ("Summary").data t
    && CURRENCIES_SUM.any (fun c => containsSub c t)
    && decide (countTotalCcyLines t ≥ 2)

/- ===== Python values (the shapes json.loads and the SDK can produce) ===== -/

/-- Python values as inspected by split.py: strings, numbers (kept as
their JSON lexeme), booleans, None, lists and dicts. `isinstance`
dispatch becomes constructor matching. -/
inductive PyVal where
  | pstr : List Char → PyVal
  | pnum : List Char → PyVal
  | pbool : Bool → PyVal
  | pnone : PyVal
  | plist : List PyVal → PyVal
  | pdict : List (List Char × PyVal) → PyVal

/-- A Python dict as an association list (the JSON parser deduplicates
keys with Python's last-value-wins rule, so lookups are unambiguous). -/
abbrev AIDict := List (List Char × PyVal)

/-- A numeric lexeme denotes zero iff its mantissa has no nonzero digit. -/
def numIsZero (l : List Char) : Bool :=
  (l.takeWhile (fun c => c ≠ 'e' && c ≠ 'E')).all
    (fun c => c = '0' || c = '.' || c = '-' || c = '+')

/-- Python truthiness of a value. -/
def pyTruthy : PyVal → Bool
  | .pstr s => !s.isEmpty
  | .pnum l => !numIsZero l
  | .pbool b => b
  | .pnone => false
  | .plist xs => !xs.isEmpty
  | .pdict d => !d.isEmpty

/-- Python `d.get(k)`: the stored value, or None when the key is absent. -/
def pyGet (d : AIDict) (k : List Char) : PyVal :=
  match d.find? (fun kv => kv.1 = k) with
  | some kv => kv.2
  | none => .pnone

/-- Python `d.get(k, dflt)`. -/
def pyGetD (d : AIDict) (k : List Char) (dflt : PyVal) : PyVal :=
  match d.find? (fun kv => kv.1 = k) with
  | some kv => kv.2
  | none => dflt

/-- Python `a or b`. -/
def pyOr (a b : PyVal) : PyVal := if pyTruthy a then a else b

/- ===== Regex Fallback Extractor (split.py lines 150-185) ===== -/

/-- The continuation context of `process_pdf`: a dict with the three keys
`full_name`, `simplified_name`, `currency`, all initialised to None. -/
structure Ctx where
  full_name : PyVal
  simplified_name : PyVal
  currency : PyVal

/-- The context at traversal start. -/
def emptyCtx : Ctx := ⟨.pnone, .pnone, .pnone⟩

/-- Lines 157-162 of split.py: the currency assignments of the fallback
dict, keyed on the regex result and the context. -/
def fallbackD1 (mcur : Option (List Char)) (context : Ctx) : AIDict :=
  match mcur with
  | some code => [(("currency").data, .pstr (pyStrip code))]
  | none =>
    if pyTruthy context.currency then [(("currency").data, context.currency)] else []

/-- Lines 164-175: the full-name and simplified-name assignments. -/
def fallbackD2 (mfull : Option (List Char)) (context : Ctx) : AIDict :=
  match mfull with
  | some grp =>
    [(("full_name").data, .pstr (pyStrip grp)),
     (("simplified_name").data, .pstr (simplify_from_full (pyStrip grp)))]
  | none =>
    (if pyTruthy context.full_name
      then [(("full_name").data, context.full_name)] else []) ++
    (if pyTruthy context.simplified_name
      then [(("simplified_name").data, context.simplified_name)] else [])

/-- Lines 177-180: the payment-total assignment (never inherited). -/
def fallbackD3 (mpay : Option (List Char)) : AIDict :=
  match mpay with
  | some amt => [(("payment_total").data, .pstr (pyStrip amt))]
  | none => []

/-- The `data` dict of `fallback_extract_from_text` just before the
completeness check, in the source's insertion order. -/
def fallbackData (page_text : List Char) (context : Ctx) : AIDict :=
  fallbackD1 (searchCurrency page_text) context
    ++ fallbackD2 (searchFund page_text) context
    ++ fallbackD3 (searchPayment page_text)

/-- `fallback_extract_from_text` of split.py: currency from the first
`Currency :` match else inherited from a truthy context; full and
simplified name from the first `Fund Hse Settlement Inst :` match (the
simplified name via `simplify_from_full`) else inherited from a truthy
context; payment total only from this page's `Payment Group ... Total`
match; the record is returned (with MEDIUM confidence iff the name line
matched here, else LOW) only when all three required fields are truthy. -/
def fallback_extract_from_text (page_text : List Char) (context : Ctx) : Option AIDict :=
  if pyTruthy (pyGet (fallbackData page_text context) ("simplified_name").data)
      && pyTruthy (pyGet (fallbackData page_text context) ("currency").data)
      && pyTruthy (pyGet (fallbackData page_text context) ("payment_total").data) then
    some (fallbackData page_text context ++
      [(("confidence").data,
        .pstr (if (searchFund page_text).isSome
               then ("MEDIUM").data else ("LOW").data))])
  else none

/- ===== json.loads (strict JSON parser, modelling the stdlib collaborator) ===== -/

/-- JSON whitespace accepted between tokens by `json.loads`. -/
def isJWs (c : Char) : Bool := c = ' ' || c = '\t' || c = '\n' || c = '\r'

def hexDigitVal (c : Char) : Option Nat :=
  if c.isDigit then some (c.toNat - 48)
  else if 'a' ≤ c && c ≤ 'f' then some (c.toNat - 87)
  else if 'A' ≤ c && c ≤ 'F' then some (c.toNat - 55)
  else none

def unescapeChar (c : Char) : Option Char :=
  if c = '"' then some '"'
  else if c = '\\' then some '\\'
  else if c = '/' then some '/'
  else if c = 'b' then some '\x08'
  else if c = 'f' then some '\x0c'
  else if c = 'n' then some '\n'
  else if c = 'r' then some '\r'
  else if c = 't' then some '\t'
  else none

/-- The body of a JSON string literal after the opening quote: returns the
decoded content and the input after the closing quote. Surrogate pairing
of `\u` escapes is not modelled; unescaped control characters are
rejected as in strict `json.loads`. -/
def parseStrBody : List Char → Option (List Char × List Char)
  | [] => none
  | '"' :: cs => some ([], cs)
  | '\\' :: 'u' :: h1 :: h2 :: h3 :: h4 :: cs =>
    match hexDigitVal h1, hexDigitVal h2, hexDigitVal h3, hexDigitVal h4 with
    | some a, some b, some c, some d =>
      (parseStrBody cs).map (fun p => (Char.ofNat (a * 4096 + b * 256 + c * 16 + d) :: p.1, p.2))
    | _, _, _, _ => none
  | '\\' :: e :: cs =>
    match unescapeChar e with
    | some d => (parseStrBody cs).map (fun p => (d :: p.1, p.2))
    | none => none
  | c :: cs =>
    if c.toNat < 32 then none
    else (parseStrBody cs).map (fun p => (c :: p.1, p.2))

/-- A strict JSON number at the head of the input (no leading zeros,
`.`/exponent parts only when well formed); the lexeme is kept verbatim. -/
def parseJNum (cs : List Char) : Option (PyVal × List Char) :=
  let sign : List Char := if cs.head? = some '-' then ['-'] else []
  let r1 := if cs.head? = some '-' then cs.tail else cs
  let ipart : Option (List Char × List Char) :=
    match r1 with
    | '0' :: r2 => some (['0'], r2)
    | c :: _ =>
      if c.isDigit then some (r1.takeWhile Char.isDigit, r1.dropWhile Char.isDigit)
      else none
    | [] => none
  match ipart with
  | none => none
  | some (ds, r2) =>
    let fp : List Char × List Char :=
      match r2 with
      | '.' :: d :: _ =>
        if d.isDigit then ('.' :: r2.tail.takeWhile Char.isDigit, r2.tail.dropWhile Char.isDigit)
        else ([], r2)
      | _ => ([], r2)
    let ep : List Char × List Char :=
      match fp.2 with
      | e :: rest =>
        if e = 'e' || e = 'E' then
          let sr : List Char × List Char :=
            match rest with
            | '+' :: rr => (['+'], rr)
            | '-' :: rr => (['-'], rr)
            | _ => ([], rest)
          match sr.2 with
          | d :: _ =>
            if d.isDigit then (e :: sr.1 ++ sr.2.takeWhile Char.isDigit, sr.2.dropWhile Char.isDigit)
            else ([], fp.2)
          | [] => ([], fp.2)
        else ([], fp.2)
      | [] => ([], fp.2)
    some (.pnum (sign ++ ds ++ fp.1 ++ ep.1), ep.2)

/-- Sequential dict insertion with Python's semantics: an existing key
keeps its position and takes the new value, a new key is appended. -/
def insertKV (d : AIDict) (k : List Char) (v : PyVal) : AIDict :=
  match d with
  | [] => [(k, v)]
  | kv :: rest => if kv.1 = k then (k, v) :: rest else kv :: insertKV rest k v

/-- Duplicate keys collapse with last-value-wins, as in a Python dict
built by sequential assignment. -/
def dedupeKV (l : AIDict) : AIDict := l.foldl (fun d kv => insertKV d kv.1 kv.2) []

mutual

/-- The JSON keyword tokens producing non-container constants: the
literal text, the produced value, and whether it may also start a number
(only the minus sign of -Infinity). -/
def jsonKeyword (s : List Char) : Option (PyVal × List Char) :=
  match dropLit ("true").data s with
  | some r => some (.pbool true, r)
  | none =>
    match dropLit ("false").data s with
    | some r => some (.pbool false, r)
    | none =>
      match dropLit ("null").data s with
      | some r => some (.pnone, r)
      | none =>
        match dropLit ("NaN").data s with
        | some r => some (.pnum ("NaN").data, r)
        | none =>
          match dropLit ("Infinity").data s with
          | some r => some (.pnum ("Infinity").data, r)
          | none =>
            match dropLit ("-Infinity").data s with
            | some r => some (.pnum ("-Infinity").data, r)
            | none => parseJNum s

/-- One JSON value (after optional leading whitespace) and the rest of
the input. Fuel only bounds nesting/length and is supplied generously. -/
def parseVal : Nat → List Char → Option (PyVal × List Char)
  | 0, _ => none
  | n + 1, cs =>
    match cs.dropWhile isJWs with
    | '{' :: r =>
      match r.dropWhile isJWs with
      | '}' :: r2 => some (.pdict [], r2)
      | _ => (parseMembers n r).map (fun p => (PyVal.pdict (dedupeKV p.1), p.2))
    | '[' :: r =>
      match r.dropWhile isJWs with
      | ']' :: r2 => some (.plist [], r2)
      | _ => (parseElems n r).map (fun p => (PyVal.plist p.1, p.2))
    | '"' :: r => (parseStrBody r).map (fun p => (PyVal.pstr p.1, p.2))
    | rest => jsonKeyword rest

/-- The members of a JSON object after the opening brace (non-empty case). -/
def parseMembers : Nat → List Char → Option (AIDict × List Char)
  | 0, _ => none
  | n + 1, cs =>
    match cs.dropWhile isJWs with
    | '"' :: r =>
      match parseStrBody r with
      | none => none
      | some (k, r2) =>
        match r2.dropWhile isJWs with
        | ':' :: r3 =>
          match parseVal n r3 with
          | none => none
          | some (v, r4) =>
            match r4.dropWhile isJWs with
            | ',' :: r5 => (parseMembers n r5).map (fun p => ((k, v) :: p.1, p.2))
            | '}' :: r5 => some ([(k, v)], r5)
            | _ => none
        | _ => none
    | _ => none

/-- The elements of a JSON array after the opening bracket (non-empty case). -/
def parseElems : Nat → List Char → Option (List PyVal × List Char)
  | 0, _ => none
  | n + 1, cs =>
    match parseVal n cs with
    | none => none
    | some (v, r) =>
      match r.dropWhile isJWs with
      | ',' :: r2 => (parseElems n r2).map (fun p => (v :: p.1, p.2))
      | ']' :: r2 => some ([v], r2)
      | _ => none

end

/-- `json.loads`: one JSON value covering the whole input up to trailing
whitespace, else failure. -/
def jsonLoadsL (cs : List Char) : Option PyVal :=
  match parseVal (2 * cs.length + 2) cs with
  | some (v, rest) => if (rest.dropWhile isJWs).isEmpty then some v else none
  | none => none

/- ===== normalize_ai_results (split.py lines 82-111) ===== -/

/-- The code-fence stripping of `normalize_ai_results`: strip the raw
text; when it starts with three backticks, keep what follows the first
occurrence of the json-tagged fence when one occurs anywhere, else what
follows the first bare fence; then keep what precedes the next fence. -/
def deFence (raw : List Char) : List Char :=
  let s := pyStrip raw
  if ("```").data.isPrefixOf s then
    let s1 :=
      if containsSub ("```json").data s then afterFirst ("```json").data s
      else afterFirst ("```").data s
    beforeFirst ("```").data s1
  else s

/-- The list branch of `normalize_ai_results`: the first element that is
itself a dict, else nothing. -/
def firstDict : List PyVal → Option AIDict
  | [] => none
  | .pdict d :: _ => some d
  | _ :: t => firstDict t

/-- Fuel measure for `normalize_ai_results`: recursion only re-enters on
strings produced by `json.loads`, which are strictly shorter than the
parsed text. -/
def normFuel : PyVal → Nat
  | .pstr s => s.length + 1
  | _ => 1

/-- Fuelled body of `normalize_ai_results`: None and non-container
scalars normalize to nothing, a dict to itself, a list to its first dict
element, and a string to the normalization of its fence-stripped strict
JSON parse. -/
def normalizeF (n : Nat) : PyVal → Option AIDict
  | .pnone => none
  | .pdict d => some d
  | .plist xs => firstDict xs
  | .pstr s =>
    match n with
    | 0 => none
    | m + 1 =>
      match jsonLoadsL (deFence s) with
      | some v => normalizeF m v
      | none => none
  | _ => none

/-- `normalize_ai_results` of split.py. -/
def normalize_ai_results (v : PyVal) : Option AIDict := normalizeF (normFuel v) v

/- ===== Python str()/repr() rendering (for the filename f-string) ===== -/

def joinComma : List (List Char) → List Char
  | [] => []
  | [x] => x
  | x :: y :: xs => x ++ (", ").data ++ joinComma (y :: xs)

/-- Python `repr` of a value, approximated: string quoting does not
re-escape content and float lexemes are kept verbatim; only reachable
for non-string values interpolated into the filename. -/
def pyRepr : PyVal → List Char
  | .pstr s => Char.ofNat 39 :: (s ++ [Char.ofNat 39])
  | .pnum l => l
  | .pbool b => if b then ("True").data else ("False").data
  | .pnone => ("None").data
  | .plist xs => '[' :: (joinComma (xs.attach.map (fun x => pyRepr x.1)) ++ [']'])
  | .pdict d =>
    '{' :: (joinComma (d.attach.map (fun x =>
      (Char.ofNat 39 :: (x.1.1 ++ [Char.ofNat 39])) ++ (": ").data ++ pyRepr x.1.2)) ++ ['}'])
termination_by v => sizeOf v
decreasing_by
all_goals simp_wf
· have := List.sizeOf_lt_of_mem x.2
  omega
· have h1 := List.sizeOf_lt_of_mem x.2
  have h2 : sizeOf x.1 = 1 + sizeOf x.1.1 + sizeOf x.1.2 := by
    cases x.1 with
    | mk a b => simp
  omega

/-- Python `str()` as used by the filename f-string. -/
def pyStr (v : PyVal) : List Char :=
  match v with
  | .pstr s => s
  | v => pyRepr v

/- ===== Decimal(payment_total.replace(',', '')) (lines 319-323) ===== -/

/-- Syntax acceptance of `decimal.Decimal` on a string (sign, coefficient
with optional dot, optional exponent, or the special values); the model
keeps the accepted cleaned string since no claim depends on its numeric
value. -/
def decimalParse (s0 : List Char) : Option (List Char) :=
  let s := pyStrip s0
  let body :=
    match s with
    | c :: t => if c = '+' || c = '-' then t else s
    | [] => s
  let lower := body.map Char.toLower
  if lower = ("infinity").data || lower = ("inf").data || lower = ("nan").data then some s
  else
    let ip := body.takeWhile Char.isDigit
    let r1 := body.dropWhile Char.isDigit
    let co :=
      match r1 with
      | '.' :: t => (!(ip = [] && t.takeWhile Char.isDigit = []), t.dropWhile Char.isDigit)
      | _ => (!(ip = []), r1)
    let expOk :=
      match co.2 with
      | [] => true
      | e :: t =>
        (e = 'e' || e = 'E') &&
        (let t2 :=
          match t with
          | c :: u => if c = '+' || c = '-' then u else t
          | [] => t
         !(t2 = []) && t2.all Char.isDigit)
    if co.1 && expOk then some s else none

/- ===== Page Pipeline (process_pdf, lines 246-351) ===== -/

/-- Externally observable effects of one run: resource events on the
fitz document handle, the per-page render handles and the transient
input copy, plus the `st.error` / `st.warning` display calls. Progress
reporting is advisory and not modelled. -/
inductive Ev where
  | tempCreate | docOpen | docClose | rOpen | rClose | tempRemove | errorMsg | warnMsg
  deriving DecidableEq

/-- Outcome of `convert_pdf_to_image` for one page: success, failure
before its internal `fitz.open`, or failure after it (in which case the
source's `except` path returns without closing). -/
inductive ROut where
  | ok | failOpen | failAfterOpen

/-- Outcome of the Gemini call for one page: an exception (caught and
logged by `get_gemini_response`), a response without text, or the
response text. -/
inductive OOut where
  | errored
  | noText
  | text : List Char → OOut

/-- Per-page environment inputs: the page's extracted text, the render
outcome, the oracle outcome, and whether the single-page PDF write
succeeds. -/
structure PageInput where
  text : List Char
  render : ROut
  oracle : OOut
  writeOk : Bool

/-- One emitted record of `generated_files`, with the sequence number it
consumed (the spec's OutputFile.sequenceNumber; the source embeds it in
the filename). The read-back bytes are abstracted by the page index. -/
structure OutFile where
  filename : List Char
  content : Nat
  currency : PyVal
  payment_total : Option (List Char)
  seq : Nat

/-- `convert_pdf_to_image`: whether an image is produced, and the render
document-handle / error events. -/
def convert_pdf_to_image : ROut → Bool × List Ev
  | .ok => (true, [.rOpen, .rClose])
  | .failOpen => (false, [.errorMsg])
  | .failAfterOpen => (false, [.rOpen, .errorMsg])

/-- `get_gemini_response`: None on exception (with an error display) or
missing text, else `normalize_ai_results` of the response text. -/
def get_gemini_response : OOut → Option AIDict × List Ev
  | .errored => (none, [.errorMsg])
  | .noText => (none, [])
  | .text t => (normalize_ai_results (.pstr t), [])

/-- Lines 295-297: update each context key with `value or previous`. -/
def ctxUpdate (ctx : Ctx) (d : AIDict) : Ctx :=
  { full_name := pyOr (pyGet d ("full_name").data) ctx.full_name,
    simplified_name := pyOr (pyGet d ("simplified_name").data) ctx.simplified_name,
    currency := pyOr (pyGet d ("currency").data) ctx.currency }

/-- `simplify_from_full` applied to an arbitrary Python value, as at line
299: falsy input yields "", a string is simplified, and for non-string
truthy input Python's `key in full_name` membership either hits an
override (list of strings / dict keys) or raises (None result models the
uncaught TypeError / AttributeError that aborts the run). -/
def simplifyPyVal (full_name : PyVal) : Option PyVal :=
  if !pyTruthy full_name then some (.pstr [])
  else
    match full_name with
    | .pstr s => some (.pstr (simplify_from_full s))
    | .plist xs =>
      match SPECIAL_MAP.find? (fun kv =>
          xs.any (fun e => match e with | .pstr s => s = kv.1 | _ => false)) with
      | some kv => some (.pstr kv.2)
      | none => none
    | .pdict d =>
      match SPECIAL_MAP.find? (fun kv => d.any (fun e => e.1 = kv.1)) with
      | some kv => some (.pstr kv.2)
      | none => none
    | _ => none

/-- Result of the per-page logic up to (but excluding) the write attempt
of lines 310-317: skip the page (with the context as left behind),
abort the run (uncaught exception), or accept a record, carrying the
updated context, the chosen name string, and the currency and payment
values. -/
inductive PDec where
  | skip : Ctx → List Ev → PDec
  | abortP : List Ev → PDec
  | accept : Ctx → List Char → PyVal → PyVal → List Ev → PDec

/-- Lines 272-307: classify, render, query the oracle, re-normalize,
fall back to text extraction, update the continuation context, choose
the name, and test the three required fields. -/
def pageDecision (ctx : Ctx) (p : PageInput) : PDec :=
  if is_summary_page p.text then .skip ctx []
  else
    let img := convert_pdf_to_image p.render
    let gem := if img.1 then get_gemini_response p.oracle else (none, [])
    let ev := img.2 ++ gem.2
    let ai0 : Option AIDict :=
      match gem.1 with
      | some d => normalize_ai_results (.pdict d)
      | none => normalize_ai_results .pnone
    let keep :=
      match ai0 with
      | some d =>
        pyTruthy (.pdict d) && pyTruthy (pyGet d ("simplified_name").data)
          && pyTruthy (pyGet d ("currency").data)
          && pyTruthy (pyGet d ("payment_total").data)
      | none => false
    let ai : Option AIDict := if keep then ai0 else fallback_extract_from_text p.text ctx
    match ai with
    | none => .skip ctx (ev ++ [.warnMsg])
    | some d =>
      let ctx1 := ctxUpdate ctx d
      let simpl := pyGet d ("simplified_name").data
      let chosen? : Option PyVal :=
        if pyTruthy simpl then some simpl
        else simplifyPyVal (pyGetD d ("full_name").data (.pstr []))
      match chosen? with
      | none => .abortP ev
      | some chosen =>
        let currency := pyGet d ("currency").data
        let payment := pyGet d ("payment_total").data
        if pyTruthy chosen && pyTruthy currency && pyTruthy payment then
          match chosen with
          | .pstr cs => .accept ctx1 cs currency payment ev
          | _ => .abortP ev
        else .skip ctx1 ev

/-- The page loop of `process_pdf`: files in emission order, the event
trace, and whether the loop aborted with an uncaught exception. A failed
single-page write logs an error and skips without consuming a sequence
number; an accepted write emits the record and increments the counter. -/
def runPages (dateStr : List Char) :
    List PageInput → Nat → Nat → Ctx → List OutFile × List Ev × Bool
  | [], _, _, _ => ([], [], false)
  | p :: ps, pageIdx, seq, ctx =>
    match pageDecision ctx p with
    | .skip ctx1 ev =>
      let rest := runPages dateStr ps (pageIdx + 1) seq ctx1
      (rest.1, ev ++ rest.2.1, rest.2.2)
    | .abortP ev => ([], ev, true)
    | .accept ctx1 cs currency payment ev =>
      if p.writeOk then
        let rest := runPages dateStr ps (pageIdx + 1) (seq + 1) ctx1
        ({ filename := emit_filename dateStr seq cs (pyStr currency),
           content := pageIdx,
           currency := currency,
           payment_total :=
             match payment with
             | .pstr s => decimalParse (s.filter (fun c => c ≠ ','))
             | _ => none,
           seq := seq } :: rest.1,
         ev ++ rest.2.1, rest.2.2)
      else
        let rest := runPages dateStr ps (pageIdx + 1) seq ctx1
        (rest.1, ev ++ [.errorMsg] ++ rest.2.1, rest.2.2)

/-- Environment inputs of one run: the date used by the filename, the
caller-supplied starting sequence number, success of writing the temp
copy, of `fitz.open`, of `PdfReader`, of the temp-file removal, and the
per-page inputs. -/
structure RunInput where
  dateStr : List Char
  start : Nat
  tempOk : Bool
  fitzOk : Bool
  readerOk : Bool
  removeOk : Bool
  pages : List PageInput

/-- `process_pdf`: the returned `generated_files` list and the event
trace. The `except` path returns `[]` after an error display without
closing the document handle; the `finally` block removes the temp copy
(or warns) whenever it was created. -/
def process_pdf (inp : RunInput) : List OutFile × List Ev :=
  if !inp.tempOk then ([], [.errorMsg])
  else
    let fin : List Ev := if inp.removeOk then [.tempRemove] else [.warnMsg]
    if !inp.fitzOk then ([], [.tempCreate, .errorMsg] ++ fin)
    else if !inp.readerOk then ([], [.tempCreate, .docOpen, .errorMsg] ++ fin)
    else
      let r := runPages inp.dateStr inp.pages 0 inp.start emptyCtx
      if r.2.2 then ([], ([.tempCreate, .docOpen] ++ r.2.1 ++ [.errorMsg]) ++ fin)
      else (r.1, ([.tempCreate, .docOpen] ++ r.2.1 ++ [.docClose]) ++ fin)

/- ===== Lemmas: strings produced by json.loads are strictly shorter ===== -/

theorem parseStrBody_len : ∀ cs p, parseStrBody cs = some p →
    p.1.length + p.2.length < cs.length := by
  intro cs
  induction cs using parseStrBody.induct with
  | case1 => intro p h; simp [parseStrBody] at h
  | case2 cs => intro p h; simp only [parseStrBody] at h; cases h; simp
  | case3 h1 h2 h3 h4 cs a b c d ha hb hc hd ih =>
    intro p h
    simp only [parseStrBody, ha, hb, hc, hd, Option.map_eq_some'] at h
    obtain ⟨q, hq, rfl⟩ := h
    have := ih q hq
    simp only [List.length_cons]
    omega
  | case4 h1 h2 h3 h4 cs hx =>
    intro p h
    rw [parseStrBody.eq_3] at h
    split at h
    · next a b c d ha hb hc hd => exact (hx a b c d ha hb hc hd).elim
    · simp at h
  | case5 e cs hnot c hu ih =>
    intro p h
    rw [parseStrBody.eq_4 e cs hnot, hu, Option.map_eq_some'] at h
    obtain ⟨q, hq, rfl⟩ := h
    have := ih q hq
    simp only [List.length_cons]
    omega
  | case6 e cs hnot hu =>
    intro p h
    rw [parseStrBody.eq_4 e cs hnot, hu] at h
    simp at h
  | case7 c cs hq hs hl hlt =>
    intro p h
    rw [parseStrBody.eq_5 c cs hq hs hl, if_pos hlt] at h
    simp at h
  | case8 c cs hq hs hl hlt ih =>
    intro p h
    rw [parseStrBody.eq_5 c cs hq hs hl, if_neg hlt, Option.map_eq_some'] at h
    obtain ⟨q, hq2, rfl⟩ := h
    have := ih q hq2
    simp only [List.length_cons]
    omega

theorem parseJNum_pnum : ∀ cs v rest, parseJNum cs = some (v, rest) →
    ∃ l, v = PyVal.pnum l := by
  intro cs v rest h
  simp only [parseJNum] at h
  split at h
  · simp at h
  · simp only [Option.some.injEq, Prod.mk.injEq] at h
    exact ⟨_, h.1.symm⟩

theorem jsonKeyword_not_pstr : ∀ s v rest, jsonKeyword s = some (v, rest) →
    ∀ s2, v ≠ PyVal.pstr s2 := by
  intro s v rest h s2
  simp only [jsonKeyword] at h
  split at h
  · simp only [Option.some.injEq, Prod.mk.injEq] at h
    rw [← h.1]
    simp
  · split at h
    · simp only [Option.some.injEq, Prod.mk.injEq] at h
      rw [← h.1]
      simp
    · split at h
      · simp only [Option.some.injEq, Prod.mk.injEq] at h
        rw [← h.1]
        simp
      · split at h
        · simp only [Option.some.injEq, Prod.mk.injEq] at h
          rw [← h.1]
          simp
        · split at h
          · simp only [Option.some.injEq, Prod.mk.injEq] at h
            rw [← h.1]
            simp
          · split at h
            · simp only [Option.some.injEq, Prod.mk.injEq] at h
              rw [← h.1]
              simp
            · obtain ⟨l, hl⟩ := parseJNum_pnum _ _ _ h
              rw [hl]
              simp

theorem parseVal_pstr_len : ∀ (n : Nat) (cs s2 rest : List Char),
    parseVal n cs = some (.pstr s2, rest) → s2.length < cs.length := by
  intro n
  match n with
  | 0 => intro cs s2 rest h; simp [parseVal] at h
  | n + 1 =>
    intro cs s2 rest h
    have hdw : (cs.dropWhile isJWs).length ≤ cs.length := length_dropWhile_le _ _
    rw [parseVal] at h
    split at h
    · next r heq =>
      split at h
      · simp at h
      · simp only [Option.map_eq_some'] at h
        obtain ⟨q, _, hq2⟩ := h
        simp at hq2
    · next r heq =>
      split at h
      · simp at h
      · simp only [Option.map_eq_some'] at h
        obtain ⟨q, _, hq2⟩ := h
        simp at hq2
    · next r heq =>
      simp only [Option.map_eq_some'] at h
      obtain ⟨q, hq, hq2⟩ := h
      have hlen := parseStrBody_len r q hq
      have : r.length + 1 = (cs.dropWhile isJWs).length := by rw [heq]; simp
      have : q.1.length < cs.length := by omega
      simp only [Prod.mk.injEq, PyVal.pstr.injEq] at hq2
      obtain ⟨hs, _⟩ := hq2
      rw [← hs]
      exact this
    · exact (jsonKeyword_not_pstr _ _ _ h s2 rfl).elim

theorem deFence_length_le (s : List Char) : (deFence s).length ≤ s.length := by
  unfold deFence
  dsimp only
  split
  · split
    · exact le_trans (beforeFirst_length_le _ _)
        (le_trans (afterFirst_length_le _ _) (pyStrip_length_le s))
    · exact le_trans (beforeFirst_length_le _ _)
        (le_trans (afterFirst_length_le _ _) (pyStrip_length_le s))
  · exact pyStrip_length_le s

theorem jsonLoads_pstr_len : ∀ cs s2, jsonLoadsL cs = some (.pstr s2) →
    s2.length < cs.length := by
  intro cs s2 h
  unfold jsonLoadsL at h
  split at h
  · next v rest hp =>
    split at h
    · simp only [Option.some.injEq] at h
      rw [h] at hp
      exact parseVal_pstr_len _ _ _ _ hp
    · simp at h
  · simp at h

theorem normalizeF_stable : ∀ (k : Nat) (s : List Char), s.length < k →
    ∀ n m, s.length < n → s.length < m →
    normalizeF n (.pstr s) = normalizeF m (.pstr s) := by
  intro k
  induction k with
  | zero => intro s h; omega
  | succ k ih =>
    intro s hk n m hn hm
    obtain ⟨n', rfl⟩ : ∃ n', n = n' + 1 := ⟨n - 1, by omega⟩
    obtain ⟨m', rfl⟩ : ∃ m', m = m' + 1 := ⟨m - 1, by omega⟩
    simp only [normalizeF]
    cases hj : jsonLoadsL (deFence s) with
    | none => rfl
    | some v =>
      cases v with
      | pstr s2 =>
        have hlt : s2.length < (deFence s).length := jsonLoads_pstr_len _ _ hj
        have hde : (deFence s).length ≤ s.length := deFence_length_le s
        exact ih s2 (by omega) n' m' (by omega) (by omega)
      | pnone => simp only [normalizeF]
      | pdict d => simp only [normalizeF]
      | plist xs => simp only [normalizeF]
      | pnum l => simp only [normalizeF]
      | pbool b => simp only [normalizeF]

/-- Claim C4: `normalize_ai_results` returns a structured object itself;
for a list, the first element that is itself a structured object (absent
when none exists); and for a text response, the strict JSON parse of the
fence-stripped text normalized recursively — so a code-fenced JSON
object normalizes like the unfenced JSON, a JSON-array string normalizes
to its first contained object, and unparsable text normalizes to absent. -/
theorem spec_C4_normalize_shapes :
    (∀ d, normalize_ai_results (.pdict d) = some d) ∧
    (∀ xs, normalize_ai_results (.plist xs) = firstDict xs) ∧
    (∀ s, normalize_ai_results (.pstr s) =
       (match jsonLoadsL (deFence s) with
        | some v => normalize_ai_results v
        | none => none)) ∧
    (normalize_ai_results (.pstr ("```json\n\x7b\"simplified_name\": \"X\"\x7d\n```").data) =
       normalize_ai_results (.pstr ("\x7b\"simplified_name\": \"X\"\x7d").data)) ∧
    (normalize_ai_results (.pstr ("[\x7b\"simplified_name\": \"X\"\x7d]").data) =
       some [(("simplified_name").data, .pstr ("X").data)]) ∧
    (normalize_ai_results (.pstr ("not json").data) = none) := by
  refine ⟨fun d => rfl, fun xs => rfl, fun s => ?_, by rfl, by rfl, by rfl⟩
  show normalizeF (s.length + 1) (.pstr s) = _
  simp only [normalizeF]
  cases hj : jsonLoadsL (deFence s) with
  | none => rfl
  | some v =>
    cases v with
    | pstr s2 =>
      have hlt : s2.length < (deFence s).length := jsonLoads_pstr_len _ _ hj
      have hde : (deFence s).length ≤ s.length := deFence_length_le s
      show normalizeF s.length (.pstr s2) = normalizeF (s2.length + 1) (.pstr s2)
      exact normalizeF_stable (s2.length + 1) s2 (by omega) _ _ (by omega) (by omega)
    | pnone => simp only [normalize_ai_results, normFuel, normalizeF]
    | pdict d => simp only [normalize_ai_results, normFuel, normalizeF]
    | plist xs => simp only [normalize_ai_results, normFuel, normalizeF]
    | pnum l => simp only [normalize_ai_results, normFuel, normalizeF]
    | pbool b => simp only [normalize_ai_results, normFuel, normalizeF]

/- ===== Claims C5, C6: the Name Normalizer ===== -/

theorem find?_append_first {α : Type} (p : α → Bool) (l1 l2 : List α) (x : α)
    (h1 : ∀ y ∈ l1, p y = false) (h2 : p x = true) :
    (l1 ++ x :: l2).find? p = some x := by
  induction l1 with
  | nil => simp [List.find?, h2]
  | cons a t ih =>
    simp only [List.cons_append, List.find?]
    rw [h1 a (List.mem_cons_self a t)]
    exact ih (fun y hy => h1 y (List.mem_cons_of_mem a hy))

/-- Claim C5: `simplify_from_full` returns the label of the first entry,
in the override table's fixed order, whose key occurs as a substring of
the input (short-circuiting later entries); with no match it returns the
trimmed text before the first dash (the whole trimmed string when no
dash occurs); and the empty string yields the empty label. The function
is total, hence pure and deterministic. -/
theorem spec_C5_simplify_first_match_or_dash_prefix :
    (∀ s, simplify_from_full s =
       (match SPECIAL_MAP.find? (fun kv => containsSub kv.1 s) with
        | some kv => kv.2
        | none => pyStrip (beforeFirst [Char.ofNat 45] s))) ∧
    simplify_from_full [] = [] := by
  constructor
  · intro s
    by_cases h : s = []
    · subst h
      decide
    · simp [simplify_from_full, h]
  · rfl

/-- Claim C6 counterexample: the full name "CMB Wing Lung FH-Mirae"
contains the override key "CMB Wing Lung", whose mapped label is
"GF MMF", yet `simplify_from_full` returns "Mirae" because the trailing
text contains the key of an earlier table entry. -/
theorem spec_C6_override_cex :
    (("CMB Wing Lung").data, ("GF MMF").data) ∈ SPECIAL_MAP ∧
    containsSub ("CMB Wing Lung").data ("CMB Wing Lung FH-Mirae").data = true ∧
    simplify_from_full ("CMB Wing Lung FH-Mirae").data = ("Mirae").data ∧
    ("Mirae").data ≠ ("GF MMF").data :=
  ⟨by decide, by decide, by decide, by decide⟩

/-- Claim C6 as amended: for every full name that contains the key of a
table entry and contains no key of any earlier entry, `simplify_from_full`
returns that entry's label exactly, regardless of the text that follows
the matched substring. -/
theorem spec_C6_override_amended : ∀ (name k v : List Char)
    (l1 l2 : List (List Char × List Char)),
    SPECIAL_MAP = l1 ++ (k, v) :: l2 →
    containsSub k name = true →
    (∀ kv ∈ l1, containsSub kv.1 name = false) →
    simplify_from_full name = v := by
  intro name k v l1 l2 hsm hk hl1
  have hkne : k ≠ [] := by
    have hmem : (k, v) ∈ SPECIAL_MAP := by
      rw [hsm]
      simp
    have hall : ∀ kv ∈ SPECIAL_MAP, kv.1 ≠ ([] : List Char) := by decide
    exact hall (k, v) hmem
  have hne : name ≠ [] := by
    intro h
    subst h
    simp only [containsSub, List.isEmpty_iff] at hk
    exact hkne hk
  have hfind : SPECIAL_MAP.find? (fun kv => containsSub kv.1 name) = some (k, v) := by
    rw [hsm]
    exact find?_append_first _ l1 l2 (k, v) hl1 hk
  simp [simplify_from_full, hne, hfind]

theorem spec_C6_override_amended_witness :
    simplify_from_full ("CMB Wing Lung Ltd").data = ("GF MMF").data :=
  spec_C6_override_amended ("CMB Wing Lung Ltd").data ("CMB Wing Lung").data
    ("GF MMF").data (SPECIAL_MAP.take 6) (SPECIAL_MAP.drop 7)
    (by decide) (by decide) (by decide)

/- ===== Claim C2: the Page Classifier ===== -/

/-- Claim C2: `is_summary_page` holds exactly when Rule A (a fixed
marker occurs and "Payment Group" does not) or Rule B ("Summary" plus a
currency code occur and at least two lines match the currency-total
pattern) holds; in particular on a text containing "Payment Group" the
classification reduces to Rule B alone, so Rule A never fires there.
Purity and determinism are inherent: the classifier is a Lean function
of the text. -/
theorem spec_C2_summary_classifier :
    (∀ t, is_summary_page t = (ruleA t || ruleB t)) ∧
    (∀ t, containsSub ("Payment Group").data t = true → is_summary_page t = ruleB t) := by
  have key : ∀ t, is_summary_page t = (ruleA t || ruleB t) := by
    intro t
    unfold is_summary_page ruleA ruleB
    cases h1 : summary_indicators.any (fun ind => containsSub ind t) <;>
      cases h2 : containsSub ("Payment Group").data t <;>
        cases h3 : containsSub ("Summary").data t
            && CURRENCIES_SUM.any (fun c => containsSub c t) <;>
          simp [h1, h2, h3]
  refine ⟨key, fun t hpg => ?_⟩
  rw [key t]
  have hra : ruleA t = false := by
    unfold ruleA
    rw [hpg]
    simp
  rw [hra]
  simp

theorem spec_C2_summary_classifier_witness :
    containsSub ("Payment Group").data ("Summary Payment Group").data = true ∧
    is_summary_page ("Summary Payment Group").data = ruleB ("Summary Payment Group").data :=
  ⟨by decide, spec_C2_summary_classifier.2 ("Summary Payment Group").data (by decide)⟩

/- ===== Claim C3: the Regex Fallback Extractor ===== -/

theorem pyGet_nil (k : List Char) : pyGet [] k = .pnone := rfl

theorem pyGet_cons (a : List Char × PyVal) (rest : AIDict) (k : List Char) :
    pyGet (a :: rest) k = if a.1 = k then a.2 else pyGet rest k := by
  by_cases h : a.1 = k
  · simp [pyGet, List.find?_cons, h]
  · simp [pyGet, List.find?_cons, h]

/-- Currency provenance as the spec words it: the first `Currency :`
match, else the context value when truthy, else absent. -/
def fbCurrency (t : List Char) (ctx : Ctx) : PyVal :=
  match searchCurrency t with
  | some code => .pstr (pyStrip code)
  | none => if pyTruthy ctx.currency then ctx.currency else .pnone

/-- Full-name provenance: the first `Fund Hse Settlement Inst :` match
(stripped), else the context value when truthy, else absent. -/
def fbFullName (t : List Char) (ctx : Ctx) : PyVal :=
  match searchFund t with
  | some grp => .pstr (pyStrip grp)
  | none => if pyTruthy ctx.full_name then ctx.full_name else .pnone

/-- Simplified-name provenance: the Name Normalizer applied to a fresh
name match, else the context value when truthy, else absent. -/
def fbSimplified (t : List Char) (ctx : Ctx) : PyVal :=
  match searchFund t with
  | some grp => .pstr (simplify_from_full (pyStrip grp))
  | none => if pyTruthy ctx.simplified_name then ctx.simplified_name else .pnone

/-- Payment provenance: only this page's `Payment Group ... Total`
match; never inherited. -/
def fbPayment (t : List Char) : PyVal :=
  match searchPayment t with
  | some amt => .pstr (pyStrip amt)
  | none => .pnone

/-- Confidence: MEDIUM when the name line matched on this page, LOW
otherwise. -/
def fbConfidence (t : List Char) : PyVal :=
  .pstr (if (searchFund t).isSome then ("MEDIUM").data else ("LOW").data)

theorem find?_append_eq {α : Type} (a b : List α) (p : α → Bool) :
    (a ++ b).find? p =
      (match a.find? p with
       | some x => some x
       | none => b.find? p) := by
  induction a with
  | nil => simp
  | cons x t ih =>
    by_cases h : p x <;> simp [List.find?_cons, h, ih]

theorem pyGet_append (a b : AIDict) (k : List Char) :
    pyGet (a ++ b) k =
      (match a.find? (fun kv => kv.1 = k) with
       | some kv => kv.2
       | none => pyGet b k) := by
  unfold pyGet
  rw [find?_append_eq]
  cases a.find? (fun kv => kv.1 = k) <;> simp

theorem fallbackD1_find_cur (mcur : Option (List Char)) (ctx : Ctx) :
    (fallbackD1 mcur ctx).find? (fun kv => kv.1 = ("currency").data) =
      (match mcur with
       | some code => some (("currency").data, .pstr (pyStrip code))
       | none =>
         if pyTruthy ctx.currency then some (("currency").data, ctx.currency) else none) := by
  cases mcur with
  | some code => simp [fallbackD1, List.find?_cons]
  | none => by_cases h : pyTruthy ctx.currency <;> simp [fallbackD1, h, List.find?_cons]

theorem fallbackD1_find_other (mcur : Option (List Char)) (ctx : Ctx) (k : List Char)
    (hk : ("currency").data ≠ k) :
    (fallbackD1 mcur ctx).find? (fun kv => kv.1 = k) = none := by
  cases mcur with
  | some code => simp [fallbackD1, List.find?_cons, hk]
  | none => by_cases h : pyTruthy ctx.currency <;> simp [fallbackD1, h, List.find?_cons, hk]

theorem fallbackD2_find_fn (mfull : Option (List Char)) (ctx : Ctx) :
    (fallbackD2 mfull ctx).find? (fun kv => kv.1 = ("full_name").data) =
      (match mfull with
       | some grp => some (("full_name").data, .pstr (pyStrip grp))
       | none =>
         if pyTruthy ctx.full_name then some (("full_name").data, ctx.full_name) else none) := by
  cases mfull with
  | some grp => simp [fallbackD2, List.find?_cons]
  | none =>
    by_cases hf : pyTruthy ctx.full_name <;>
      by_cases hs : pyTruthy ctx.simplified_name <;>
        simp +decide [fallbackD2, hf, hs, List.find?_cons]

theorem fallbackD2_find_sn (mfull : Option (List Char)) (ctx : Ctx) :
    (fallbackD2 mfull ctx).find? (fun kv => kv.1 = ("simplified_name").data) =
      (match mfull with
       | some grp =>
         some (("simplified_name").data, .pstr (simplify_from_full (pyStrip grp)))
       | none =>
         if pyTruthy ctx.simplified_name
         then some (("simplified_name").data, ctx.simplified_name) else none) := by
  cases mfull with
  | some grp => simp +decide [fallbackD2, List.find?_cons]
  | none =>
    by_cases hf : pyTruthy ctx.full_name <;>
      by_cases hs : pyTruthy ctx.simplified_name <;>
        simp +decide [fallbackD2, hf, hs, List.find?_cons]

theorem fallbackD2_find_other (mfull : Option (List Char)) (ctx : Ctx) (k : List Char)
    (h1 : ("full_name").data ≠ k) (h2 : ("simplified_name").data ≠ k) :
    (fallbackD2 mfull ctx).find? (fun kv => kv.1 = k) = none := by
  cases mfull with
  | some grp => simp [fallbackD2, List.find?_cons, h1, h2]
  | none =>
    by_cases hf : pyTruthy ctx.full_name <;>
      by_cases hs : pyTruthy ctx.simplified_name <;>
        simp [fallbackD2, hf, hs, List.find?_cons, h1, h2]

theorem fallbackD3_find_pt (mpay : Option (List Char)) :
    (fallbackD3 mpay).find? (fun kv => kv.1 = ("payment_total").data) =
      (match mpay with
       | some amt => some (("payment_total").data, .pstr (pyStrip amt))
       | none => none) := by
  cases mpay with
  | some amt => simp [fallbackD3, List.find?_cons]
  | none => simp [fallbackD3]

theorem fallbackD3_find_other (mpay : Option (List Char)) (k : List Char)
    (hk : ("payment_total").data ≠ k) :
    (fallbackD3 mpay).find? (fun kv => kv.1 = k) = none := by
  cases mpay with
  | some amt => simp [fallbackD3, List.find?_cons, hk]
  | none => simp [fallbackD3]

theorem fallbackData_get_cur (t : List Char) (ctx : Ctx) :
    pyGet (fallbackData t ctx) ("currency").data = fbCurrency t ctx := by
  unfold fallbackData fbCurrency
  rw [List.append_assoc, pyGet_append, fallbackD1_find_cur]
  cases searchCurrency t with
  | some code => rfl
  | none =>
    by_cases h : pyTruthy ctx.currency
    · simp [h]
    · simp only [h]
      rw [pyGet_append, fallbackD2_find_other _ _ _ (by decide) (by decide)]
      unfold pyGet
      rw [fallbackD3_find_other _ _ (by decide)]
      simp

theorem fallbackData_get_fn (t : List Char) (ctx : Ctx) :
    pyGet (fallbackData t ctx) ("full_name").data = fbFullName t ctx := by
  unfold fallbackData fbFullName
  rw [List.append_assoc, pyGet_append, fallbackD1_find_other _ _ _ (by decide),
    pyGet_append, fallbackD2_find_fn]
  cases searchFund t with
  | some grp => rfl
  | none =>
    by_cases h : pyTruthy ctx.full_name
    · simp [h]
    · simp only [h]
      unfold pyGet
      rw [fallbackD3_find_other _ _ (by decide)]
      simp

theorem fallbackData_get_sn (t : List Char) (ctx : Ctx) :
    pyGet (fallbackData t ctx) ("simplified_name").data = fbSimplified t ctx := by
  unfold fallbackData fbSimplified
  rw [List.append_assoc, pyGet_append, fallbackD1_find_other _ _ _ (by decide),
    pyGet_append, fallbackD2_find_sn]
  cases searchFund t with
  | some grp => rfl
  | none =>
    by_cases h : pyTruthy ctx.simplified_name
    · simp [h]
    · simp only [h]
      unfold pyGet
      rw [fallbackD3_find_other _ _ (by decide)]
      simp

theorem fallbackData_get_pt (t : List Char) (ctx : Ctx) :
    pyGet (fallbackData t ctx) ("payment_total").data = fbPayment t := by
  unfold fallbackData fbPayment
  rw [List.append_assoc, pyGet_append, fallbackD1_find_other _ _ _ (by decide),
    pyGet_append, fallbackD2_find_other _ _ _ (by decide) (by decide)]
  unfold pyGet
  rw [fallbackD3_find_pt]
  cases searchPayment t <;> simp

theorem fallbackData_find_conf (t : List Char) (ctx : Ctx) :
    (fallbackData t ctx).find? (fun kv => kv.1 = ("confidence").data) = none := by
  unfold fallbackData
  rw [List.append_assoc, find?_append_eq, fallbackD1_find_other _ _ _ (by decide),
    find?_append_eq, fallbackD2_find_other _ _ _ (by decide) (by decide),
    fallbackD3_find_other _ _ (by decide)]

theorem pyGet_append_nonlast (a : AIDict) (x : List Char × PyVal) (k : List Char)
    (hx : x.1 ≠ k) : pyGet (a ++ [x]) k = pyGet a k := by
  rw [pyGet_append]
  cases h : a.find? (fun kv => kv.1 = k) with
  | some kv => simp [pyGet, h]
  | none => simp [pyGet, h, List.find?_cons, hx]

/-- Claim C3: the fallback extractor returns a record exactly when, after
regex matching plus inheritance, simplified name, currency and payment
total are all truthy; and every returned record's fields have exactly
the stated provenance, with payment total never inherited and confidence
MEDIUM iff the name line matched on this page. -/
theorem spec_C3_fallback_fields : ∀ (t : List Char) (ctx : Ctx),
    ((fallback_extract_from_text t ctx).isSome =
      (pyTruthy (fbSimplified t ctx) && pyTruthy (fbCurrency t ctx)
        && pyTruthy (fbPayment t))) ∧
    (∀ d, fallback_extract_from_text t ctx = some d →
      pyGet d ("currency").data = fbCurrency t ctx ∧
      pyGet d ("full_name").data = fbFullName t ctx ∧
      pyGet d ("simplified_name").data = fbSimplified t ctx ∧
      pyGet d ("payment_total").data = fbPayment t ∧
      pyGet d ("confidence").data = fbConfidence t) := by
  intro t ctx
  have hc := fallbackData_get_cur t ctx
  have hf := fallbackData_get_fn t ctx
  have hs := fallbackData_get_sn t ctx
  have hp := fallbackData_get_pt t ctx
  constructor
  · unfold fallback_extract_from_text
    rw [hc, hs, hp]
    split
    · next h => simp [h]
    · next h =>
      simp at h ⊢
      exact h
  · intro d hd
    unfold fallback_extract_from_text at hd
    split at hd
    · simp only [Option.some.injEq] at hd
      subst hd
      refine ⟨?_, ?_, ?_, ?_, ?_⟩
      · rw [pyGet_append_nonlast _ _ _
          (show (("confidence").data : List Char) ≠ ("currency").data from by decide), hc]
      · rw [pyGet_append_nonlast _ _ _
          (show (("confidence").data : List Char) ≠ ("full_name").data from by decide), hf]
      · rw [pyGet_append_nonlast _ _ _
          (show (("confidence").data : List Char) ≠ ("simplified_name").data from by decide), hs]
      · rw [pyGet_append_nonlast _ _ _
          (show (("confidence").data : List Char) ≠ ("payment_total").data from by decide), hp]
      · unfold fbConfidence
        rw [pyGet_append, fallbackData_find_conf]
        simp [pyGet, List.find?_cons]
    · exact absurd hd (by simp)

/-- Concrete continuation page for the C3 witness: a payment line only. -/
def c3t : List Char := ("Payment Group A Total 1,234.56").data

/-- Concrete context carrying the previous page's fields. -/
def c3ctx : Ctx := ⟨.pstr ("F-X").data, .pstr ("F").data, .pstr ("HKD").data⟩

/-- The record the fallback extractor returns on that page. -/
def c3d : AIDict :=
  [(("currency").data, .pstr ("HKD").data),
   (("full_name").data, .pstr ("F-X").data),
   (("simplified_name").data, .pstr ("F").data),
   (("payment_total").data, .pstr ("1,234.56").data),
   (("confidence").data, .pstr ("LOW").data)]

theorem spec_C3_fallback_fields_witness :
    pyGet c3d ("currency").data = fbCurrency c3t c3ctx ∧
    pyGet c3d ("full_name").data = fbFullName c3t c3ctx ∧
    pyGet c3d ("simplified_name").data = fbSimplified c3t c3ctx ∧
    pyGet c3d ("payment_total").data = fbPayment c3t ∧
    pyGet c3d ("confidence").data = fbConfidence c3t :=
  (spec_C3_fallback_fields c3t c3ctx).2 c3d (by rfl)

/- ===== Claim C7: the emitted filename ===== -/

/-- Oracle response carrying a simplified name with a leading space. -/
def c7json : List Char :=
  ("\x7b\"simplified_name\": \" Mirae\", \"currency\": \"USD\", \"payment_total\": \"1,234.56\"\x7d").data

/-- A run whose single page is accepted from that oracle response. -/
def c7run : RunInput :=
  { dateStr := ("240531").data, start := 5, tempOk := true, fitzOk := true,
    readerOk := true, removeOk := true,
    pages := [{ text := ("x").data, render := .ok, oracle := .text c7json, writeOk := true }] }

/-- Claim C7 counterexample: an accepted page whose oracle-supplied
simplified name is " Mirae" emits `S240531-05_Mirae_USD-order
details.pdf`, because `sanitize_filename` also strips surrounding
whitespace, while the claim's replace-only formula predicts
`S240531-05_ Mirae_USD-order details.pdf`. -/
theorem spec_C7_filename_cex :
    (process_pdf c7run).1.map (fun f => f.filename) =
      [("S240531-05_Mirae_USD-order details.pdf").data] ∧
    ¬ (("S240531-05_Mirae_USD-order details.pdf").data =
       ("S").data ++ ("240531").data ++ [Char.ofNat 45] ++ zfill2 (Nat.repr 5).data
         ++ ('_' :: ((" Mirae").data.map
              (fun c => if invalidFilenameChars.contains c then '_' else c)))
         ++ ('_' :: ("USD").data) ++ ("-order details.pdf").data) :=
  ⟨by rfl, by decide⟩

/-- Claim C7 as amended: the emitted filename is bit-exactly
`S<YYMMDD>-<seq zero-padded to at least two digits>_<label>_<CCY>-order
details.pdf`, where the label is the chosen simplified name with each of
the characters < > : " / \ | ? * replaced by an underscore, then
stripped of surrounding whitespace, with "untitled" substituted when the
result is empty; in particular the claim's concrete instance for date
2024-05-31, sequence 3, label "Mirae", currency "USD" holds. -/
theorem spec_C7_filename_amended :
    (∀ (date : List Char) (seq : Nat) (label ccy : List Char),
      emit_filename date seq label ccy =
        ("S").data ++ date ++ [Char.ofNat 45] ++ zfill2 (Nat.repr seq).data
          ++ ('_' ::
            (let r := pyStrip (label.map
              (fun c => if invalidFilenameChars.contains c then '_' else c));
             if r = [] then ("untitled").data else r))
          ++ ('_' :: ccy) ++ ("-order details.pdf").data) ∧
    emit_filename ("240531").data 3 ("Mirae").data ("USD").data =
      ("S240531-03_Mirae_USD-order details.pdf").data :=
  ⟨fun date seq label ccy => rfl, by rfl⟩

/- ===== Claim C1: sequence numbering ===== -/

theorem runPages_seq_map (dateStr : List Char) :
    ∀ (ps : List PageInput) (idx seq : Nat) (ctx : Ctx),
    (runPages dateStr ps idx seq ctx).1.map (fun f => f.seq) =
      List.range' seq (runPages dateStr ps idx seq ctx).1.length := by
  intro ps
  induction ps with
  | nil => intro idx seq ctx; rfl
  | cons p t ih =>
    intro idx seq ctx
    simp only [runPages]
    cases hd : pageDecision ctx p with
    | skip ctx1 ev => exact ih (idx + 1) seq ctx1
    | abortP ev => rfl
    | accept ctx1 cs currency payment ev =>
      by_cases hw : p.writeOk
      · simp only [hw, if_true]
        simp only [List.map_cons, List.length_cons, List.range'_succ]
        exact congrArg (List.cons seq) (ih (idx + 1) (seq + 1) ctx1)
      · simp only [hw, if_false]
        exact ih (idx + 1) seq ctx1

/-- Claim C1: for every run the sequence numbers embedded in the emitted
OutputFiles, in emission order, are exactly start, start+1, start+2, ...
— a strictly increasing contiguous run beginning at the caller-supplied
value: the counter advances only when a page's record is accepted and
its file is emitted, and skipped pages (summary, unextractable, or
failed write) consume no sequence number. -/
theorem spec_C1_sequence_contiguous : ∀ inp : RunInput,
    (process_pdf inp).1.map (fun f => f.seq) =
      List.range' inp.start (process_pdf inp).1.length := by
  intro inp
  unfold process_pdf
  split
  · rfl
  · dsimp only
    split
    · rfl
    · split
      · rfl
      · split
        · rfl
        · exact runPages_seq_map inp.dateStr inp.pages 0 inp.start emptyCtx

/- ===== Claim C10: context update survives a failed write ===== -/

/-- First page of the C10 run: fully extractable by the fallback, but
its single-page write fails. -/
def c10page1 : PageInput :=
  { text := ("Fund Hse Settlement Inst : FH-Mirae Fund\nCurrency : USD\nPayment Group ABC Total 1,234.56\n").data,
    render := .failOpen, oracle := .noText, writeOk := false }

/-- Second page of the C10 run: a continuation page carrying only its
payment line. -/
def c10page2 : PageInput :=
  { text := ("continuation\nPayment Group XYZ Total 2,000.00\n").data,
    render := .failOpen, oracle := .noText, writeOk := true }

def c10run : RunInput :=
  { dateStr := ("240531").data, start := 7, tempOk := true, fitzOk := true,
    readerOk := true, removeOk := true, pages := [c10page1, c10page2] }

/-- The context after the first page of the C10 run. -/
def c10ctx1 : Ctx :=
  ⟨.pstr ("FH-Mirae Fund").data, .pstr ("Mirae").data, .pstr ("USD").data⟩

/-- Claim C10: when the single-page write fails for an accepted page, no
OutputFile is emitted and the sequence number does not advance, but the
continuation context has already been updated from that page's record
before the write is attempted — the update is not rolled back, so the
remaining pages run against the updated context and inherit values from
the page whose output was never emitted. Concretely: a run whose first
page is accepted with a failing write and whose second page is a bare
continuation emits exactly one file, for the second page, at the
starting sequence number, named with the first page's name and currency. -/
theorem spec_C10_write_failure_context :
    (∀ (dateStr : List Char) (ps : List PageInput) (idx seq : Nat) (ctx ctx1 : Ctx)
       (p : PageInput) (cs : List Char) (currency payment : PyVal) (ev : List Ev),
      pageDecision ctx p = .accept ctx1 cs currency payment ev →
      p.writeOk = false →
      runPages dateStr (p :: ps) idx seq ctx =
        ((runPages dateStr ps (idx + 1) seq ctx1).1,
         ev ++ [.errorMsg] ++ (runPages dateStr ps (idx + 1) seq ctx1).2.1,
         (runPages dateStr ps (idx + 1) seq ctx1).2.2)) ∧
    (process_pdf c10run).1.map (fun f => (f.filename, f.seq)) =
      [(("S240531-07_Mirae_USD-order details.pdf").data, 7)] := by
  constructor
  · intro dateStr ps idx seq ctx ctx1 p cs currency payment ev hd hw
    simp only [runPages, hd, hw, Bool.false_eq_true, if_false]
  · rfl

theorem spec_C10_write_failure_context_witness :
    runPages ("240531").data [c10page1] 0 7 emptyCtx =
      ((runPages ("240531").data [] 1 7 c10ctx1).1,
       [Ev.errorMsg] ++ [Ev.errorMsg] ++ (runPages ("240531").data [] 1 7 c10ctx1).2.1,
       (runPages ("240531").data [] 1 7 c10ctx1).2.2) :=
  spec_C10_write_failure_context.1 ("240531").data [] 0 7 emptyCtx c10ctx1 c10page1
    ("Mirae").data (.pstr ("USD").data) (.pstr ("1,234.56").data) [Ev.errorMsg]
    (by rfl) (by rfl)

/- ===== Claim C8: resource handling ===== -/

/-- The events a page decision records. -/
def pdecEv : PDec → List Ev
  | .skip _ ev => ev
  | .abortP ev => ev
  | .accept _ _ _ _ ev => ev

theorem convert_no_doc (r : ROut) :
    ((convert_pdf_to_image r).2.count Ev.docOpen = 0) ∧
    ((convert_pdf_to_image r).2.count Ev.docClose = 0) := by
  cases r <;> exact ⟨rfl, rfl⟩

theorem gemini_no_doc (o : OOut) :
    ((get_gemini_response o).2.count Ev.docOpen = 0) ∧
    ((get_gemini_response o).2.count Ev.docClose = 0) := by
  cases o <;> exact ⟨rfl, rfl⟩

theorem pageDecision_no_doc (ctx : Ctx) (p : PageInput) :
    ((pdecEv (pageDecision ctx p)).count Ev.docOpen = 0) ∧
    ((pdecEv (pageDecision ctx p)).count Ev.docClose = 0) := by
  have hi := convert_no_doc p.render
  have hg : ((if (convert_pdf_to_image p.render).1
        then get_gemini_response p.oracle else (none, [])).2.count Ev.docOpen = 0) ∧
      ((if (convert_pdf_to_image p.render).1
        then get_gemini_response p.oracle else (none, [])).2.count Ev.docClose = 0) := by
    split
    · exact gemini_no_doc p.oracle
    · exact ⟨rfl, rfl⟩
  unfold pageDecision
  split
  · exact ⟨rfl, rfl⟩
  · dsimp only
    split
    · constructor <;> simp [pdecEv, List.count_append, hi.1, hi.2, hg.1, hg.2]
    · split
      · constructor <;> simp [pdecEv, List.count_append, hi.1, hi.2, hg.1, hg.2]
      · split
        · split
          · constructor <;> simp [pdecEv, List.count_append, hi.1, hi.2, hg.1, hg.2]
          · constructor <;> simp [pdecEv, List.count_append, hi.1, hi.2, hg.1, hg.2]
        · constructor <;> simp [pdecEv, List.count_append, hi.1, hi.2, hg.1, hg.2]

theorem runPages_no_doc (dateStr : List Char) :
    ∀ (ps : List PageInput) (idx seq : Nat) (ctx : Ctx),
    ((runPages dateStr ps idx seq ctx).2.1.count Ev.docOpen = 0) ∧
    ((runPages dateStr ps idx seq ctx).2.1.count Ev.docClose = 0) := by
  intro ps
  induction ps with
  | nil => intro idx seq ctx; exact ⟨rfl, rfl⟩
  | cons p t ih =>
    intro idx seq ctx
    have hp := pageDecision_no_doc ctx p
    simp only [runPages]
    cases hd : pageDecision ctx p with
    | skip ctx1 ev =>
      rw [hd] at hp
      simp only [pdecEv] at hp
      have hr := ih (idx + 1) seq ctx1
      constructor <;> simp [List.count_append, hp.1, hp.2, hr.1, hr.2]
    | abortP ev =>
      rw [hd] at hp
      simp only [pdecEv] at hp
      exact hp
    | accept ctx1 cs currency payment ev =>
      rw [hd] at hp
      simp only [pdecEv] at hp
      by_cases hw : p.writeOk
      · have hr := ih (idx + 1) (seq + 1) ctx1
        simp only [hw, if_true]
        constructor <;> simp [List.count_append, hp.1, hp.2, hr.1, hr.2]
      · have hr := ih (idx + 1) seq ctx1
        simp only [hw, Bool.false_eq_true, if_false]
        constructor <;> simp [List.count_append, hp.1, hp.2, hr.1, hr.2]

/-- Oracle response whose simplified name is a JSON array: the page is
accepted, and `sanitize_filename` then raises an uncaught TypeError,
aborting the run after the document was opened. -/
def c8json : List Char :=
  ("\x7b\"simplified_name\": [1], \"currency\": \"USD\", \"payment_total\": \"1.00\"\x7d").data

def c8run : RunInput :=
  { dateStr := ("240531").data, start := 1, tempOk := true, fitzOk := true,
    readerOk := true, removeOk := true,
    pages := [{ text := ("x").data, render := .ok, oracle := .text c8json, writeOk := true }] }

/-- Claim C8 counterexample: on the exception exit path the opened
source-document handle is not closed — the run's event trace records one
document open and zero document closes (the `except` branch of
`process_pdf` returns without `doc.close()`). -/
theorem spec_C8_resources_cex :
    ((process_pdf c8run).2.count Ev.docOpen = 1) ∧
    ((process_pdf c8run).2.count Ev.docClose = 0) :=
  ⟨by rfl, by rfl⟩

/-- Claim C8 as amended: on a run that opens the document and completes
without an uncaught exception, the document handle is closed exactly
once and the transient input copy is deleted afterwards (the removal is
the final effect); on the exception exit path the handle is not closed,
and a render failure after `convert_pdf_to_image`'s internal open
likewise leaks that handle. -/
theorem spec_C8_resources_amended : ∀ inp : RunInput,
    inp.tempOk = true → inp.fitzOk = true → inp.readerOk = true → inp.removeOk = true →
    (runPages inp.dateStr inp.pages 0 inp.start emptyCtx).2.2 = false →
    ((process_pdf inp).2.count Ev.docOpen = 1 ∧
     (process_pdf inp).2.count Ev.docClose = 1 ∧
     (process_pdf inp).2.getLast? = some Ev.tempRemove) := by
  intro inp h1 h2 h3 h4 h5
  have hr := runPages_no_doc inp.dateStr inp.pages 0 inp.start emptyCtx
  unfold process_pdf
  simp only [h1, h2, h3, h4, h5, Bool.not_true, Bool.false_eq_true, if_false, if_true]
  refine ⟨?_, ?_, ?_⟩
  · simp [List.count_append, hr.1]
  · simp [List.count_append, hr.2]
  · exact List.getLast?_concat _

theorem spec_C8_resources_amended_witness :
    ((process_pdf c10run).2.count Ev.docOpen = 1 ∧
     (process_pdf c10run).2.count Ev.docClose = 1 ∧
     (process_pdf c10run).2.getLast? = some Ev.tempRemove) :=
  spec_C8_resources_amended c10run (by rfl) (by rfl) (by rfl) (by rfl) (by rfl)

/- ===== Claim C9: run failure vs zero qualifying pages ===== -/

/-- A successful run whose only page is a summary page: zero records. -/
def c9empty : RunInput :=
  { dateStr := ("240531").data, start := 1, tempOk := true, fitzOk := true,
    readerOk := true, removeOk := true,
    pages := [{ text := ("Summary\nTotal USD 1,234.56\nTotal HKD 2,000.00\n").data,
                render := .failOpen, oracle := .noText, writeOk := true }] }

/-- The same run except that the source document cannot be opened. -/
def c9fail : RunInput := { c9empty with fitzOk := false }

/-- Claim C9 counterexample: a run that cannot open the source document
returns exactly the same value — the empty list — as a successful run in
which zero pages qualified; the returned result carries no error signal
the caller could use to distinguish the two outcomes. -/
theorem spec_C9_failure_signal_cex :
    (process_pdf c9fail).1 = [] ∧ (process_pdf c9empty).1 = [] ∧
    (process_pdf c9fail).1 = (process_pdf c9empty).1 :=
  ⟨rfl, rfl, rfl⟩

/-- Claim C9 as amended: a wholesale run failure returns zero records
and is signalled only through the error-display side effect (an
`st.error` event in the trace), not through the returned list; a
zero-qualified successful run returns the identical empty list and
displays no error. -/
theorem spec_C9_failure_signal_amended :
    (∀ inp : RunInput, inp.tempOk = true → inp.fitzOk = false →
      (process_pdf inp).1 = [] ∧ Ev.errorMsg ∈ (process_pdf inp).2) ∧
    ((process_pdf c9empty).1 = [] ∧ Ev.errorMsg ∉ (process_pdf c9empty).2) := by
  constructor
  · intro inp h1 h2
    unfold process_pdf
    simp [h1, h2]
  · exact ⟨rfl, by decide⟩

theorem spec_C9_failure_signal_amended_witness :
    (process_pdf c9fail).1 = [] ∧ Ev.errorMsg ∈ (process_pdf c9fail).2 :=
  spec_C9_failure_signal_amended.1 c9fail (by rfl) (by rfl)
